import Mathlib

set_option maxRecDepth 4000

/-
Shallow embedding of the minegauler Rust solver
(rust/solver/src/utils.rs, logic.rs, probs.rs).

Machine integers (u32, usize, the C integer types at the FFI boundary) are
modelled as Nat or Int, taking the value mod 2 ^ 32 or 2 ^ 64 exactly where
the source performs a narrowing cast or a wrapping multiplication.
Rust panics are modelled as the error branch of Except.
-/

/-- Panic messages the embedded code can raise. -/
inductive PanicMsg where
  /-- Grid::new - the message is: Both dimensions must be nonzero. -/
  | dimsMustBeNonzero
  /-- find_numbers - the message is: Number ... has too many neighbouring mines. -/
  | tooManyMines
  deriving DecidableEq, Repr

/-- utils.rs CellContents. -/
inductive CellContents where
  | Unclicked : CellContents
  | Num (n : Nat) : CellContents
  | Mine (n : Nat) : CellContents
  deriving DecidableEq, Repr

/-- utils.rs - impl Default for CellContents returns Self::Unclicked. -/
instance : Inhabited CellContents := ⟨CellContents.Unclicked⟩

/-- utils.rs Coord(pub u32, pub u32). -/
abbrev Coord := Nat × Nat

/-- utils.rs Grid of T - x_size, y_size are u32, cells a Vec of length
    x_size * y_size. -/
structure Grid (T : Type) where
  x_size : Nat
  y_size : Nat
  cells : List T
  deriving DecidableEq

namespace Grid

/-- utils.rs Grid::new - panics unless both dimensions are nonzero, then
    allocates x_size * y_size (a u32 multiplication, hence mod 2 ^ 32)
    default-valued cells. -/
def new (T : Type) [Inhabited T] (x_size y_size : Nat) : Except PanicMsg (Grid T) :=
  if x_size < 1 ∨ y_size < 1 then .error .dimsMustBeNonzero
  else .ok ⟨x_size, y_size, List.replicate (x_size * y_size % 2 ^ 32) default⟩

variable {T : Type}

/-- utils.rs Grid::num_cells. -/
def num_cells (g : Grid T) : Nat := g.x_size * g.y_size

/-- utils.rs Grid::has_coord. -/
def has_coord (g : Grid T) (coord : Coord) : Bool :=
  decide (coord.1 < g.x_size) && decide (coord.2 < g.y_size)

/-- utils.rs Grid::coord_to_index - the source first panics when the coord is
    out of bounds; every use below is at in-bounds coords, where the computed
    u32 value x + y * x_size does not overflow. -/
def coord_to_index (g : Grid T) (coord : Coord) : Nat :=
  coord.1 + coord.2 * g.x_size

/-- utils.rs Grid::coord_from_index - index as u32, then components mod and
    div by x_size; the source then panics when the result is out of bounds. -/
def coord_from_index (g : Grid T) (index : Nat) : Coord :=
  (index % 2 ^ 32 % g.x_size, index % 2 ^ 32 / g.x_size)

/-- utils.rs Grid::cell - the out-of-bounds panic is modelled by a default
    value; all embedded calls are at in-bounds coords. -/
def cell [Inhabited T] (g : Grid T) (coord : Coord) : T :=
  g.cells.getD (g.coord_to_index coord) default

/-- utils.rs Grid::set_cell. -/
def set_cell (g : Grid T) (coord : Coord) (contents : T) : Grid T :=
  { g with cells := g.cells.set (g.coord_to_index coord) contents }

/-- utils.rs Grid::iter_coords - row-major order, y outer, x inner. -/
def iter_coords (g : Grid T) : List Coord :=
  (List.range g.y_size).flatMap fun y => (List.range g.x_size).map fun x => (x, y)

/-- utils.rs Grid::iter_cells. -/
def iter_cells [Inhabited T] (g : Grid T) : List (Coord × T) :=
  g.iter_coords.map fun c => (c, g.cell c)

/-- utils.rs Grid::get_neighbours - the 3 x 3 box clipped at the grid edges,
    minus the cell itself (the source loops j, i over the clipped ranges and
    inserts every pair other than the centre into a HashSet). -/
def get_neighbours (g : Grid T) (coord : Coord) : Finset Coord :=
  let x := coord.1
  let y := coord.2
  let x_min := x - 1
  let x_max := min (g.x_size - 1) (x + 1)
  let y_min := y - 1
  let y_max := min (g.y_size - 1) (y + 1)
  (Finset.Icc x_min x_max ×ˢ Finset.Icc y_min y_max).filter fun p => p ≠ coord

end Grid

/-- utils.rs - type Board = Grid of CellContents. -/
abbrev Board := Grid CellContents

/-- utils.rs - type BoardProbs = Grid of f32. -/
abbrev BoardProbs := Grid Float

/-- logic.rs Number - a number on a board. The groups back-reference field is
    always the empty vector in the source (find_numbers pushes vec![] and
    find_groups is a stub), so it is omitted from the embedding. -/
structure Number where
  /-- Value of the number, as shown (reduced by neighbouring mines). -/
  value : Nat
  /-- Coordinate of the cell the number is shown in. -/
  coord : Coord
  /-- Neighbouring clickable cells. -/
  nbrs : Finset Coord
  deriving DecidableEq

/-- logic.rs Group (the source name Group is taken by Mathlib, hence the
    prefixed Lean name). -/
structure SolverGroup where
  max : Nat
  numbers : List Number

/-- logic.rs Config. -/
structure Config where
  a : Unit

/-- The summed multiplicity of Mine cells among a set of cells (logic.rs
    find_numbers, the mines accumulator summing n over CellContents::Mine(n)
    neighbours). -/
def mineVal : CellContents → Nat
  | .Mine n => n
  | _ => 0

/-- logic.rs find_numbers - the reduction term: the sum of mineVal over the
    neighbours of a coord. -/
def mineSum (board : Board) (coord : Coord) : Nat :=
  (board.get_neighbours coord).sum fun c => mineVal (board.cell c)

/-- logic.rs find_numbers - iter_num_cells: the (coord, value) pairs of the
    cells containing a number, in iteration order. -/
def numberCells (board : Board) : List (Coord × Nat) :=
  board.iter_cells.filterMap fun cv =>
    match cv.2 with
    | .Num n => some (cv.1, n)
    | _ => none

/-- logic.rs find_numbers - the loop body for one number cell: panics when the
    shown value is less than the summed neighbouring mines, otherwise builds
    the Number with the reduced value and the unclicked neighbours. -/
def mkNumber (board : Board) (coord : Coord) (orig_value : Nat) : Except PanicMsg Number :=
  if orig_value < mineSum board coord then .error .tooManyMines
  else
    .ok { value := orig_value - mineSum board coord
          coord := coord
          nbrs := (board.get_neighbours coord).filter fun c =>
            board.cell c = CellContents.Unclicked }

/-- logic.rs find_numbers - the loop over the number cells, in order, stopping
    at the first panic. -/
def find_numbers_go (board : Board) : List (Coord × Nat) → Except PanicMsg (List Number)
  | [] => .ok []
  | cn :: rest =>
    match mkNumber board cn.1 cn.2 with
    | .error e => .error e
    | .ok num =>
      match find_numbers_go board rest with
      | .error e => .error e
      | .ok nums => .ok (num :: nums)

/-- logic.rs find_numbers - find the numbers on a board. -/
def find_numbers (board : Board) : Except PanicMsg (List Number) :=
  find_numbers_go board (numberCells board)

/-- logic.rs find_groups - a stub returning the empty vector. -/
def find_groups (numbers : List Number) : List SolverGroup := []

/-- logic.rs find_configs - a stub returning the empty vector. -/
def find_configs (numbers : List Number) (groups : List SolverGroup) : List Config := []

/-- logic.rs find_probs - a stub returning BoardProbs::new(0, 0), which panics
    because Grid::new rejects zero dimensions. -/
def find_probs (board : Board) (configs : List Config) : Except PanicMsg BoardProbs :=
  Grid.new Float 0 0

/-- logic.rs Board::calc_probs - the public pipeline entry point. -/
def Board.calc_probs (board : Board) : Except PanicMsg BoardProbs :=
  match find_numbers board with
  | .error e => .error e
  | .ok numbers =>
    let groups := find_groups numbers
    let configs := find_configs numbers groups
    find_probs board configs

/-- Modelled from the spec: the bindings module (generated from solver.h) is
    not among the analysed sources. Return code for success. -/
def RC_SUCCESS : Nat := 0

/-- Modelled from the spec: return code for the distinct invalid-argument
    status. -/
def RC_INVALID_ARG : Nat := 1

/-- Modelled from the spec: solver.h cell encoding - the numbers 0 through 8
    are themselves, followed contiguously by the unclicked marker and the
    three mine markers. Largest number value. -/
def SOLVER_CELL_EIGHT : Nat := 8

/-- Modelled from the spec: the unclicked-cell marker. -/
def SOLVER_CELL_UNCLICKED : Nat := 9

/-- Modelled from the spec: the single-mine marker. -/
def SOLVER_CELL_ONE_MINE : Nat := 10

/-- Modelled from the spec: the double-mine marker. -/
def SOLVER_CELL_TWO_MINE : Nat := 11

/-- Modelled from the spec: the triple-mine marker. -/
def SOLVER_CELL_THREE_MINE : Nat := 12

/-- Modelled from the spec: solver_board_t - explicit dimensions (C integers,
    modelled as Int) and the cell-contents pointer: none models NULL, some
    the readable memory behind the pointer. -/
structure CBoard where
  x_size : Int
  y_size : Int
  cells : Option (List Nat)

/-- A Rust cast, as u32, applied to a C integer: two-complement wrap. -/
def intToU32 (i : Int) : Nat := (i % (2 ^ 32 : Int)).toNat

/-- A Rust cast, as usize (64-bit), applied to a C integer. -/
def intToUSize (i : Int) : Nat := (i % (2 ^ 64 : Int)).toNat

/-- probs.rs - impl TryFrom of solver_cell_contents_t for CellContents. -/
def CellContents.try_from (c_contents : Nat) : Option CellContents :=
  if c_contents = SOLVER_CELL_UNCLICKED then some .Unclicked
  else if c_contents ≤ SOLVER_CELL_EIGHT then some (.Num c_contents)
  else if c_contents = SOLVER_CELL_ONE_MINE ∨ c_contents = SOLVER_CELL_TWO_MINE ∨
      c_contents = SOLVER_CELL_THREE_MINE then
    some (.Mine (c_contents - SOLVER_CELL_ONE_MINE + 1))
  else none

/-- Outcome of Board::try_from at the C boundary: Ok, the catchable Err(()),
    or a crash (a panic in Grid::new, or undefined behaviour reading past the
    end of the cells buffer). -/
inductive TryBoardResult where
  | ok (b : Board) : TryBoardResult
  | invalid : TryBoardResult
  | crash : TryBoardResult

/-- probs.rs - the cell-filling loop of TryFrom of solver_board_t for Board:
    reads each index from the cells memory, converts, and writes it into the
    board; a failed conversion aborts the whole conversion with Err. -/
def tryFillLoop (mem : List Nat) : List Nat → Board → TryBoardResult
  | [], board => .ok board
  | i :: rest, board =>
    match mem.get? i with
    | none => .crash
    | some c_contents =>
      match CellContents.try_from c_contents with
      | none => .invalid
      | some contents =>
        tryFillLoop mem rest (board.set_cell (board.coord_from_index i) contents)

/-- probs.rs - impl TryFrom of solver_board_t for Board: builds a fresh board
    of the cast dimensions (Grid::new panics on a zero dimension - that panic
    is not caught, hence crash), then fills cells 0 .. x_size * y_size. -/
def Board.try_from (c_board : CBoard) : TryBoardResult :=
  match Grid.new CellContents (intToU32 c_board.x_size) (intToU32 c_board.y_size) with
  | .error _ => .crash
  | .ok board =>
    match c_board.cells with
    | none => .crash
    | some mem =>
      tryFillLoop mem (List.range (intToUSize (c_board.x_size * c_board.y_size))) board

/-- probs.rs calc_probs - the exposed C API. The first argument models the
    board pointer (none = NULL), the second models c_probs.is_null(). A result
    of some rc is the returned code; none means the call does not return
    normally (a panic unwinding across the FFI boundary, or undefined
    behaviour). -/
def c_calc_probs (c_board : Option CBoard) (c_probs_null : Bool) : Option Nat :=
  match c_board, c_probs_null with
  | none, _ => some RC_INVALID_ARG
  | some _, true => some RC_INVALID_ARG
  | some cb, false =>
    match cb.cells with
    | none => some RC_INVALID_ARG
    | some _ =>
      match Board.try_from cb with
      | .invalid => some RC_INVALID_ARG
      | .crash => none
      | .ok board =>
        match Board.calc_probs board with
        | .error _ => none
        | .ok _ => some RC_SUCCESS

/-
Concrete boards used by the theorems below.
-/

/-- A fully valid 1 x 1 board with a single unclicked cell. -/
def board11 : Board := ⟨1, 1, [CellContents.Unclicked]⟩

/-- A consistent 2 x 1 board: a revealed 1 next to one unclicked cell. -/
def board21 : Board := ⟨2, 1, [CellContents.Num 1, CellContents.Unclicked]⟩

/-- The Number that find_numbers extracts from board21. -/
def num21 : Number := ⟨1, (0, 0), {(1, 0)}⟩

/-- An inconsistent 2 x 1 board: a revealed 2 with only one unclicked
    neighbour. -/
def boardD : Board := ⟨2, 1, [CellContents.Num 2, CellContents.Unclicked]⟩

/-- A 2 x 1 board with a revealed 2 next to a single double-mine cell. -/
def boardM2 : Board := ⟨2, 1, [CellContents.Num 2, CellContents.Mine 2]⟩

/-- A 2 x 1 board with a revealed 1 next to a single double-mine cell. -/
def boardM1 : Board := ⟨2, 1, [CellContents.Num 1, CellContents.Mine 2]⟩

/-- C1: the claim says calc_probs returns a probability grid of the same
    shape as the board. It does not: find_probs is a stub returning
    BoardProbs::new(0, 0) and Grid::new panics on zero dimensions, so
    calc_probs on a perfectly valid 1 x 1 board ends in the dimension panic
    instead of a 1 x 1 grid of probabilities. -/
theorem calc_probs_panics_on_valid_board :
    Board.calc_probs board11 = .error .dimsMustBeNonzero := by
  rfl

/-- C2: the claim says a clue requiring more mines than it has unclicked
    neighbours makes compute_probabilities fail with InconsistentBoard. The
    code has no such error: on a 2 x 1 board whose revealed 2 has a single
    unclicked neighbour, constraint extraction succeeds, the stubbed
    find_configs silently returns no configurations, and the call ends in the
    unrelated dimension panic of the find_probs stub. -/
theorem inconsistent_board_gets_no_distinct_error :
    find_numbers boardD = .ok [⟨2, (0, 0), {(1, 0)}⟩]
    ∧ Board.calc_probs boardD = .error .dimsMustBeNonzero := by
  exact ⟨rfl, rfl⟩

/-- C3: the claim says every variable mentioned by a constraint appears in
    exactly one Group produced by find_groups. find_groups is a stub
    returning the empty vector, so on a board with a constrained variable
    that variable appears in no group at all. -/
theorem find_groups_drops_constrained_variables :
    ∃ nums, find_numbers board21 = .ok nums
      ∧ (∃ num ∈ nums, ((1 : Nat), (0 : Nat)) ∈ num.nbrs)
      ∧ find_groups nums = [] := by
  exact ⟨[num21], rfl, ⟨num21, by simp, by decide⟩, rfl⟩

/-- C6: the claim says every malformed input - including non-positive
    dimensions - makes the C-boundary calc_probs return RC_INVALID_ARG. A
    zero dimension is not rejected: it reaches Grid::new inside
    Board::try_from, whose panic unwinds across the FFI boundary (modelled as
    none) instead of producing the invalid-argument status. -/
theorem c_calc_probs_zero_dims_no_invalid_arg :
    c_calc_probs (some ⟨0, 1, some [SOLVER_CELL_UNCLICKED]⟩) false = none := by
  rfl

/-- Chebyshev distance between two coords - the spec-side notion of the
    8-connected neighbourhood. -/
def chebDist (c p : Coord) : Nat := max (Nat.dist c.1 p.1) (Nat.dist c.2 p.2)

/-- Unfolding lemma for Grid::get_neighbours. -/
theorem get_neighbours_eq {T : Type} (g : Grid T) (c : Coord) :
    g.get_neighbours c =
      (Finset.Icc (c.1 - 1) (min (g.x_size - 1) (c.1 + 1)) ×ˢ
        Finset.Icc (c.2 - 1) (min (g.y_size - 1) (c.2 + 1))).filter fun p => p ≠ c := rfl

/-- C7: for every grid and in-bounds coordinate, get_neighbours returns
    exactly the in-bounds coordinates at Chebyshev distance 1 (the
    8-connected neighbourhood clipped at the edges), never the coordinate
    itself, and so at most 8 coordinates. -/
theorem get_neighbours_spec {T : Type} (g : Grid T) (c : Coord)
    (hc : g.has_coord c = true) :
    (∀ p : Coord, p ∈ g.get_neighbours c ↔ (g.has_coord p = true ∧ chebDist c p = 1))
    ∧ c ∉ g.get_neighbours c
    ∧ (g.get_neighbours c).card ≤ 8 := by
  simp only [Grid.has_coord, Bool.and_eq_true, decide_eq_true_eq] at hc
  obtain ⟨hcx, hcy⟩ := hc
  refine ⟨?_, ?_, ?_⟩
  · intro p
    obtain ⟨px, py⟩ := p
    obtain ⟨cx, cy⟩ := c
    rw [get_neighbours_eq]
    simp only [Finset.mem_filter, Finset.mem_product, Finset.mem_Icc, Grid.has_coord,
      Bool.and_eq_true, decide_eq_true_eq, chebDist, Nat.dist, ne_eq, Prod.mk.injEq, not_and,
      inf_eq_min, sup_eq_max]
    omega
  · rw [get_neighbours_eq]
    simp
  · rw [get_neighbours_eq]
    rw [Finset.filter_ne']
    have hmem : c ∈ Finset.Icc (c.1 - 1) (min (g.x_size - 1) (c.1 + 1)) ×ˢ
        Finset.Icc (c.2 - 1) (min (g.y_size - 1) (c.2 + 1)) := by
      simp only [Finset.mem_product, Finset.mem_Icc, inf_eq_min]
      omega
    rw [Finset.card_erase_of_mem hmem, Finset.card_product, Nat.card_Icc, Nat.card_Icc]
    have h1 : min (g.x_size - 1) (c.1 + 1) + 1 - (c.1 - 1) ≤ 3 := by omega
    have h2 : min (g.y_size - 1) (c.2 + 1) + 1 - (c.2 - 1) ≤ 3 := by omega
    calc (min (g.x_size - 1) (c.1 + 1) + 1 - (c.1 - 1)) *
        (min (g.y_size - 1) (c.2 + 1) + 1 - (c.2 - 1)) - 1
        ≤ 3 * 3 - 1 := Nat.sub_le_sub_right (Nat.mul_le_mul h1 h2) 1
      _ ≤ 8 := by omega

/-- A concrete 5 x 3 grid matching the one in the utils.rs tests. -/
def grid53 : Grid Nat := ⟨5, 3, List.replicate 15 0⟩

/-- C7 witness: the theorem applied to the 5 x 3 grid at coordinate (2, 1). -/
theorem get_neighbours_spec_witness :
    (((4 : Nat), (2 : Nat)) ∈ grid53.get_neighbours (2, 1) ↔
      (grid53.has_coord (4, 2) = true ∧ chebDist (2, 1) (4, 2) = 1))
    ∧ (2, 1) ∉ grid53.get_neighbours (2, 1)
    ∧ (grid53.get_neighbours (2, 1)).card ≤ 8 := by
  obtain ⟨h1, h2, h3⟩ := get_neighbours_spec grid53 (2, 1) (by decide)
  exact ⟨h1 (4, 2), h2, h3⟩

/-- C8: on a grid with nonzero dimensions (whose u32 cell count does not
    overflow), coord_to_index and coord_from_index are mutually inverse, and
    coord_to_index is the row-major map x + y * x_size. -/
theorem coord_index_bijection {T : Type} (g : Grid T)
    (hx : 1 ≤ g.x_size) (hsize : g.x_size * g.y_size ≤ 2 ^ 32) :
    (∀ i, i < g.x_size * g.y_size → g.coord_to_index (g.coord_from_index i) = i)
    ∧ (∀ c : Coord, g.has_coord c = true →
        g.coord_from_index (g.coord_to_index c) = c
        ∧ g.coord_to_index c = c.1 + c.2 * g.x_size) := by
  constructor
  · intro i hi
    have hlt : i < 2 ^ 32 := lt_of_lt_of_le hi hsize
    simp only [Grid.coord_from_index, Grid.coord_to_index, Nat.mod_eq_of_lt hlt]
    exact Nat.mod_add_div' i g.x_size
  · intro c hc
    simp only [Grid.has_coord, Bool.and_eq_true, decide_eq_true_eq] at hc
    obtain ⟨hcx, hcy⟩ := hc
    refine ⟨?_, rfl⟩
    have hlt : c.1 + c.2 * g.x_size < 2 ^ 32 := by
      have h1 : c.1 + c.2 * g.x_size < g.x_size * g.y_size := by
        calc c.1 + c.2 * g.x_size < g.x_size + c.2 * g.x_size := by omega
          _ = (c.2 + 1) * g.x_size := by ring
          _ ≤ g.y_size * g.x_size := Nat.mul_le_mul_right _ (by omega)
          _ = g.x_size * g.y_size := Nat.mul_comm _ _
      exact lt_of_lt_of_le h1 hsize
    simp only [Grid.coord_from_index, Grid.coord_to_index, Nat.mod_eq_of_lt hlt]
    have hm : (c.1 + c.2 * g.x_size) % g.x_size = c.1 := by
      rw [Nat.add_mul_mod_self_right]
      exact Nat.mod_eq_of_lt hcx
    have hd : (c.1 + c.2 * g.x_size) / g.x_size = c.2 := by
      rw [Nat.add_mul_div_right _ _ (by omega : 0 < g.x_size), Nat.div_eq_of_lt hcx]
      omega
    rw [hm, hd]

/-- C8 witness: the round trips on the 5 x 3 grid, at linear index 8 and at
    coordinate (3, 1). -/
theorem coord_index_bijection_witness :
    grid53.coord_to_index (grid53.coord_from_index 8) = 8
    ∧ grid53.coord_from_index (grid53.coord_to_index (3, 1)) = (3, 1)
    ∧ grid53.coord_to_index (3, 1) = 3 + 1 * 5 := by
  obtain ⟨h1, h2⟩ := coord_index_bijection grid53 (by decide) (by decide)
  obtain ⟨h3, h4⟩ := h2 (3, 1) (by decide)
  exact ⟨h1 8 (by decide), h3, by decide⟩

/-- C9: Grid::new succeeds exactly when both dimensions are nonzero, and the
    fresh grid has the given dimensions with every one of its x * y cells
    equal to the element default - for a Board, Unclicked. (The cell-count
    equality is stated under the u32 no-overflow bound implied by the
    source allocation.) -/
theorem grid_new_spec (x y : Nat) :
    ((Grid.new CellContents x y).isOk ↔ 1 ≤ x ∧ 1 ≤ y)
    ∧ (∀ b : Board, Grid.new CellContents x y = .ok b →
        b.x_size = x ∧ b.y_size = y
        ∧ (x * y < 2 ^ 32 → b.cells.length = x * y)
        ∧ ∀ cc ∈ b.cells, cc = CellContents.Unclicked) := by
  constructor
  · unfold Grid.new
    split
    · next h =>
        simp only [Except.isOk, Except.toBool, Bool.false_eq_true, false_iff]
        omega
    · next h =>
        simp only [Except.isOk, Except.toBool, true_iff]
        omega
  · intro b hb
    unfold Grid.new at hb
    split at hb
    · cases hb
    · cases hb
      refine ⟨rfl, rfl, ?_, ?_⟩
      · intro hlt
        simp only [List.length_replicate]
        exact Nat.mod_eq_of_lt hlt
      · intro cc hcc
        have := List.eq_of_mem_replicate hcc
        simpa using this

/-- C9 witness: a 2 x 3 Board construction succeeds, and a zero dimension is
    rejected, via the theorem at concrete inputs. -/
theorem grid_new_spec_witness :
    (Grid.new CellContents 2 3).isOk ∧ ¬ (Grid.new CellContents 2 0).isOk := by
  constructor
  · exact (grid_new_spec 2 3).1.mpr (by omega)
  · intro h
    have := (grid_new_spec 2 0).1.mp h
    omega

/-- Helper: the ok-result of the find_numbers loop, one Number per input pair,
    in order, with the reduced value and the unclicked neighbours. -/
theorem find_numbers_go_ok (board : Board) (l : List (Coord × Nat)) (nums : List Number)
    (h : find_numbers_go board l = .ok nums) :
    nums.map Number.coord = l.map Prod.fst
    ∧ ∀ num ∈ nums, ∃ p ∈ l, num.coord = p.1
        ∧ mineSum board p.1 ≤ p.2
        ∧ num.value = p.2 - mineSum board p.1
        ∧ num.nbrs = (board.get_neighbours p.1).filter
            (fun c => board.cell c = CellContents.Unclicked) := by
  induction l generalizing nums with
  | nil =>
    simp only [find_numbers_go] at h
    cases h
    simp
  | cons cn rest ih =>
    simp only [find_numbers_go] at h
    split at h
    · cases h
    · next num hmk =>
      split at h
      · cases h
      · next tail htail =>
        cases h
        obtain ⟨ih1, ih2⟩ := ih tail htail
        unfold mkNumber at hmk
        split at hmk
        · cases hmk
        · next hge =>
          cases hmk
          constructor
          · simp [ih1]
          · intro num hnum
            rcases List.mem_cons.mp hnum with heq | hmem
            · subst heq
              exact ⟨cn, List.mem_cons_self _ _, rfl, by omega, rfl, rfl⟩
            · obtain ⟨p, hp, hrest⟩ := ih2 num hmem
              exact ⟨p, List.mem_cons_of_mem _ hp, hrest⟩

/-- Helper: the find_numbers loop panics exactly when some input pair has a
    shown value below its summed neighbouring mines. -/
theorem find_numbers_go_error_iff (board : Board) (l : List (Coord × Nat)) :
    (∃ e, find_numbers_go board l = .error e) ↔ ∃ p ∈ l, p.2 < mineSum board p.1 := by
  induction l with
  | nil => simp [find_numbers_go]
  | cons cn rest ih =>
    simp only [find_numbers_go]
    unfold mkNumber
    by_cases hlt : cn.2 < mineSum board cn.1
    · simp only [if_pos hlt]
      constructor
      · intro _
        exact ⟨cn, List.mem_cons_self _ _, hlt⟩
      · intro _
        exact ⟨.tooManyMines, rfl⟩
    · simp only [if_neg hlt]
      constructor
      · intro he
        obtain ⟨e, he⟩ := he
        split at he
        · next htail =>
          have : ∃ e, find_numbers_go board rest = .error e := ⟨_, htail⟩
          obtain ⟨p, hp, hplt⟩ := ih.mp this
          exact ⟨p, List.mem_cons_of_mem _ hp, hplt⟩
        · cases he
      · intro hex
        obtain ⟨p, hp, hplt⟩ := hex
        rcases List.mem_cons.mp hp with heq | hmem
        · subst heq
          omega
        · obtain ⟨e, he⟩ := ih.mpr ⟨p, hmem, hplt⟩
          rw [he]
          exact ⟨e, rfl⟩

/-- Helper: every pair listed by numberCells is a Num cell of the board. -/
theorem numberCells_cell (board : Board) (p : Coord × Nat) (hp : p ∈ numberCells board) :
    board.cell p.1 = CellContents.Num p.2 := by
  simp only [numberCells, List.mem_filterMap] at hp
  obtain ⟨cv, hcv, hmatch⟩ := hp
  simp only [Grid.iter_cells, List.mem_map] at hcv
  obtain ⟨c, _, hc⟩ := hcv
  subst hc
  revert hmatch
  cases hcell : board.cell c with
  | Unclicked => intro hmatch; cases hmatch
  | Num n => intro hmatch; cases hmatch; simpa using hcell
  | Mine n => intro hmatch; cases hmatch

/-- C5: find_numbers emits exactly one Number per revealed-number cell, in
    board iteration order, and each Number carries exactly the neighbouring
    unclicked coordinates as its variables. -/
theorem find_numbers_one_per_cell (board : Board) (nums : List Number)
    (h : find_numbers board = .ok nums) :
    nums.map Number.coord = (numberCells board).map Prod.fst
    ∧ ∀ num ∈ nums, num.nbrs = (board.get_neighbours num.coord).filter
        (fun c => board.cell c = CellContents.Unclicked) := by
  obtain ⟨h1, h2⟩ := find_numbers_go_ok board (numberCells board) nums h
  refine ⟨h1, ?_⟩
  intro num hnum
  obtain ⟨p, hp, hco, hge, hval, hn⟩ := h2 num hnum
  rw [hn, hco]

/-- C5 witness: the theorem applied to the concrete 2 x 1 board with one
    revealed 1. -/
theorem find_numbers_one_per_cell_witness :
    [num21].map Number.coord = (numberCells board21).map Prod.fst
    ∧ num21.nbrs = (board21.get_neighbours num21.coord).filter
        (fun c => board21.cell c = CellContents.Unclicked) := by
  obtain ⟨h1, h2⟩ := find_numbers_one_per_cell board21 [num21] rfl
  exact ⟨h1, h2 num21 (by simp)⟩

/-- Whether a cell contains a known mine - the spec-side notion used by the
    claimed count-of-mine-cells reduction. -/
def isMineCell : CellContents → Bool
  | .Mine _ => true
  | _ => false

/-- The count of neighbouring cells containing a known mine - the reduction
    the claim asserts. -/
def mineCellCount (board : Board) (coord : Coord) : Nat :=
  ((board.get_neighbours coord).filter fun c => isMineCell (board.cell c) = true).card

/-- C4 counterexample: on a 2 x 1 board whose revealed 2 neighbours a single
    Mine(2) cell, the emitted value is 0, not the claimed 2 minus the count of
    mine cells = 1; and with a revealed 1 next to the Mine(2) cell the shown
    value minus the count is 0, not negative, yet extraction fails - the code
    subtracts the summed mine multiplicities, not the cell count. -/
theorem find_numbers_mine_count_cex :
    boardM2.cell (0, 0) = CellContents.Num 2
    ∧ mineCellCount boardM2 (0, 0) = 1
    ∧ find_numbers boardM2 = .ok [⟨0, (0, 0), ∅⟩]
    ∧ ¬ (0 : Nat) = 2 - 1
    ∧ boardM1.cell (0, 0) = CellContents.Num 1
    ∧ mineCellCount boardM1 (0, 0) = 1
    ∧ find_numbers boardM1 = .error .tooManyMines := by
  refine ⟨rfl, by decide, rfl, by decide, rfl, by decide, rfl⟩

/-- C4 amended: the required value of each extracted constraint equals the
    shown value minus the SUM of the multiplicities of neighbouring mine
    cells, extraction fails exactly when that difference would be negative,
    and the emitted value is non-negative (Nat subtraction of a sum that is
    at most the shown value). -/
theorem find_numbers_required_spec (board : Board) :
    (∀ nums, find_numbers board = .ok nums →
      ∀ num ∈ nums, ∃ v, board.cell num.coord = CellContents.Num v
        ∧ mineSum board num.coord ≤ v
        ∧ num.value = v - mineSum board num.coord)
    ∧ ((∃ e, find_numbers board = .error e)
        ↔ ∃ p ∈ numberCells board, p.2 < mineSum board p.1) := by
  constructor
  · intro nums h num hnum
    obtain ⟨h1, h2⟩ := find_numbers_go_ok board (numberCells board) nums h
    obtain ⟨p, hp, hco, hge, hval, hn⟩ := h2 num hnum
    refine ⟨p.2, ?_, ?_, ?_⟩
    · rw [hco]
      exact numberCells_cell board p hp
    · rw [hco]
      exact hge
    · rw [hco]
      exact hval
  · exact find_numbers_go_error_iff board (numberCells board)

/-- C4 amended witness: the failure characterisation at the concrete board
    with a revealed 1 next to a double mine. -/
theorem find_numbers_required_spec_witness :
    (∃ e, find_numbers boardM1 = .error e)
    ↔ ∃ p ∈ numberCells boardM1, p.2 < mineSum boardM1 p.1 :=
  (find_numbers_required_spec boardM1).2

/-- Helper: over in-bounds indices, the fill loop of Board::try_from never
    crashes - it succeeds exactly when every read cell value converts, and
    returns Err exactly when some value does not. -/
theorem tryFillLoop_iff (mem : List Nat) (idxs : List Nat) (b : Board)
    (hin : ∀ i ∈ idxs, i < mem.length) :
    ((∃ b2, tryFillLoop mem idxs b = .ok b2)
      ↔ ∀ i ∈ idxs, (CellContents.try_from (mem.getD i 0)).isSome = true)
    ∧ (tryFillLoop mem idxs b = .invalid
      ↔ ¬ ∀ i ∈ idxs, (CellContents.try_from (mem.getD i 0)).isSome = true) := by
  induction idxs generalizing b with
  | nil =>
    simp only [tryFillLoop]
    constructor
    · simp
    · constructor
      · intro h
        cases h
      · simp
  | cons i rest ih =>
    have hi : i < mem.length := hin i (List.mem_cons_self _ _)
    cases hv : mem.get? i with
    | none =>
      exfalso
      rw [List.get?_eq_none] at hv
      omega
    | some v =>
      have hgetd : mem.getD i 0 = v := by
        simp [List.getD_eq_getElem?_getD, ← List.get?_eq_getElem?, hv]
      simp only [tryFillLoop, hv]
      cases htf : CellContents.try_from v with
      | none =>
        constructor
        · constructor
          · intro hex
            obtain ⟨b2, hb2⟩ := hex
            cases hb2
          · intro hall
            have := hall i (List.mem_cons_self _ _)
            rw [hgetd, htf] at this
            cases this
        · constructor
          · intro _ hall
            have := hall i (List.mem_cons_self _ _)
            rw [hgetd, htf] at this
            cases this
          · intro _
            rfl
      | some contents =>
        have hrest := ih (b.set_cell (b.coord_from_index i) contents)
          (fun j hj => hin j (List.mem_cons_of_mem _ hj))
        constructor
        · rw [hrest.1]
          constructor
          · intro hall j hj
            rcases List.mem_cons.mp hj with heq | hmem
            · subst heq
              rw [hgetd, htf]
              rfl
            · exact hall j hmem
          · intro hall j hj
            exact hall j (List.mem_cons_of_mem _ hj)
        · rw [hrest.2]
          constructor
          · intro hnall hall
            exact hnall fun j hj => hall j (List.mem_cons_of_mem _ hj)
          · intro hnall hall
            apply hnall
            intro j hj
            rcases List.mem_cons.mp hj with heq | hmem
            · subst heq
              rw [hgetd, htf]
              rfl
            · exact hall j hmem

/-- C10: with sane dimensions and a sufficient cell buffer, Board::try_from is
    atomic over cell encodings - it succeeds exactly when every read cell
    value is a valid encoding (the unclicked marker, a number 0 through 8, or
    one of the three mine markers), one invalid value anywhere yields Err and
    no board, and the mine markers decode to Mine(k) with k between 1 and 3. -/
theorem board_try_from_spec (cb : CBoard) (mem : List Nat)
    (hx : 0 < cb.x_size) (hy : 0 < cb.y_size)
    (hsz : cb.x_size * cb.y_size < 2 ^ 31)
    (hcells : cb.cells = some mem)
    (hlen : (cb.x_size * cb.y_size).toNat ≤ mem.length) :
    ((∃ b, Board.try_from cb = .ok b)
      ↔ ∀ i < (cb.x_size * cb.y_size).toNat,
          (CellContents.try_from (mem.getD i 0)).isSome = true)
    ∧ (Board.try_from cb = .invalid
      ↔ ¬ ∀ i < (cb.x_size * cb.y_size).toNat,
          (CellContents.try_from (mem.getD i 0)).isSome = true)
    ∧ (∀ v, (CellContents.try_from v).isSome = true ↔
        (v = SOLVER_CELL_UNCLICKED ∨ v ≤ SOLVER_CELL_EIGHT ∨ v = SOLVER_CELL_ONE_MINE
          ∨ v = SOLVER_CELL_TWO_MINE ∨ v = SOLVER_CELL_THREE_MINE))
    ∧ (∀ v k, CellContents.try_from v = some (CellContents.Mine k) → 1 ≤ k ∧ k ≤ 3) := by
  have hxy : (0 : Int) < cb.x_size * cb.y_size := mul_pos hx hy
  have hxle : cb.x_size ≤ cb.x_size * cb.y_size := le_mul_of_one_le_right (le_of_lt hx) hy
  have hyle : cb.y_size ≤ cb.x_size * cb.y_size :=
    le_mul_of_one_le_left (le_of_lt hy) hx
  have hu32x : intToU32 cb.x_size = cb.x_size.toNat := by
    unfold intToU32
    rw [Int.emod_eq_of_lt (le_of_lt hx) (by omega)]
  have hu32y : intToU32 cb.y_size = cb.y_size.toNat := by
    unfold intToU32
    rw [Int.emod_eq_of_lt (le_of_lt hy) (by omega)]
  have husize : intToUSize (cb.x_size * cb.y_size) = (cb.x_size * cb.y_size).toNat := by
    unfold intToUSize
    rw [Int.emod_eq_of_lt (le_of_lt hxy) (by omega)]
  have hnew : Grid.new CellContents (intToU32 cb.x_size) (intToU32 cb.y_size) =
      .ok ⟨cb.x_size.toNat, cb.y_size.toNat,
        List.replicate (cb.x_size.toNat * cb.y_size.toNat % 2 ^ 32) default⟩ := by
    rw [hu32x, hu32y]
    unfold Grid.new
    rw [if_neg (by omega)]
  have hloop := tryFillLoop_iff mem (List.range (intToUSize (cb.x_size * cb.y_size)))
    ⟨cb.x_size.toNat, cb.y_size.toNat,
      List.replicate (cb.x_size.toNat * cb.y_size.toNat % 2 ^ 32) default⟩
    (by
      intro i hi
      rw [List.mem_range, husize] at hi
      omega)
  have hunfold : Board.try_from cb =
      tryFillLoop mem (List.range (intToUSize (cb.x_size * cb.y_size)))
        ⟨cb.x_size.toNat, cb.y_size.toNat,
          List.replicate (cb.x_size.toNat * cb.y_size.toNat % 2 ^ 32) default⟩ := by
    unfold Board.try_from
    rw [hnew, hcells]
  refine ⟨?_, ?_, ?_, ?_⟩
  · rw [hunfold, hloop.1, husize]
    constructor
    · intro hall i hi
      exact hall i (List.mem_range.mpr hi)
    · intro hall i hi
      exact hall i (List.mem_range.mp hi)
  · rw [hunfold, hloop.2, husize]
    constructor
    · intro hnall hall
      exact hnall fun i hi => hall i (List.mem_range.mp hi)
    · intro hnall hall
      exact hnall fun i hi => hall i (List.mem_range.mpr hi)
  · intro v
    simp only [CellContents.try_from, SOLVER_CELL_UNCLICKED, SOLVER_CELL_EIGHT,
      SOLVER_CELL_ONE_MINE, SOLVER_CELL_TWO_MINE, SOLVER_CELL_THREE_MINE]
    split
    · simp
      omega
    · split
      · simp
        omega
      · split
        · simp
          omega
        · simp
          omega
  · intro v k h
    simp only [CellContents.try_from, SOLVER_CELL_UNCLICKED, SOLVER_CELL_EIGHT,
      SOLVER_CELL_ONE_MINE, SOLVER_CELL_TWO_MINE, SOLVER_CELL_THREE_MINE] at h
    split at h
    · cases h
    · split at h
      · cases h
      · split at h
        · next hcond =>
          cases h
          omega
        · cases h

/-- C10 witness: a 1 x 2 C board holding the unclicked marker and the
    single-mine marker converts successfully, via the theorem at this
    concrete input. -/
theorem board_try_from_spec_witness :
    ∃ b, Board.try_from ⟨1, 2, some [9, 10]⟩ = .ok b := by
  have h := board_try_from_spec ⟨1, 2, some [9, 10]⟩ [9, 10]
    (by decide) (by decide) (by decide) rfl (by decide)
  exact h.1.mpr (by decide)
